import Mathlib

/-!
Shallow embedding of the job-queue / batch-extraction pipeline of the
linkedin-harvest-agent server: the `JobQueue` class (`job-queue.ts`), the
error-kind constants (`config/constants.ts`), and the storage semantics it
relies on (`storage.ts`: `createProfile` defaults `retryCount` to 0 and
`getProfilesByJob` returns records in insertion order).

Randomness (the simulated extraction outcomes), wall-clock time and the
externally-interleaved pause/stop mutations are modelled as explicit oracles
passed in a `RunEnv`.
-/

namespace LHQ

/-- Error-kind constants from `CONFIG.ERROR_TYPES` in `config/constants.ts`. -/
def CAPTCHA : String := "captcha"

/-- Error kind for missing targets (`CONFIG.ERROR_TYPES.NOT_FOUND`). -/
def NOT_FOUND : String := "not_found"

/-- Error kind for forbidden targets (`CONFIG.ERROR_TYPES.ACCESS_RESTRICTED`). -/
def ACCESS_RESTRICTED : String := "access_restricted"

/-- Error kind for throttling (`CONFIG.ERROR_TYPES.RATE_LIMIT`). -/
def RATE_LIMIT : String := "rate_limit"

/-- Fallback kind returned by `categorizeError` for anything unclassified. -/
def UNKNOWN : String := "unknown"

/-- A thrown JavaScript value: an `Error` instance carrying a message, or any
non-`Error` value (a string, `null`, ...), which `categorizeError` and the
`error instanceof Error` tests treat uniformly. -/
inductive JSErr where
  | error (message : String)
  | nonError
deriving DecidableEq, Repr

/-- Substring occurrence on character lists; models JS `String.includes`. -/
def subOccurs (pat : List Char) : List Char → Bool
  | [] => pat.isEmpty
  | c :: rest => pat.isPrefixOf (c :: rest) || subOccurs pat rest

/-- Lowercasing of a character list; models `message.toLowerCase()` (the
messages classified here are ASCII). -/
def lowerChars (l : List Char) : List Char := l.map Char.toLower

/-- JS `s.includes(pat)` on strings. -/
def includes (s pat : String) : Bool := subOccurs pat.data s.data

/-- Model of `JobQueue.categorizeError` (job-queue.ts lines 346-362): classify
a thrown value by case-insensitive substring tests on its message; non-`Error`
values fall through to `"unknown"`. -/
def categorizeError : JSErr → String
  | .error message =>
      let m : String := ⟨lowerChars message.data⟩
      if includes m "captcha" || includes m "challenge" then CAPTCHA
      else if includes m "not found" || includes m "404" then NOT_FOUND
      else if includes m "restricted" || includes m "403" || includes m "unauthorized" then
        ACCESS_RESTRICTED
      else if includes m "rate limit" || includes m "429" then RATE_LIMIT
      else UNKNOWN
  | .nonError => UNKNOWN

/-- Outcome of one invocation of the inlined unit of work inside
`extractProfileWithRetry` (the simulated extraction, job-queue.ts lines
277-323): it either returns a payload or throws. The `Math.random()` draws of
the source are replaced by an explicit attempt sequence; the payload built
from `mockProfileGenerator` is abstracted to an opaque tag. -/
inductive Attempt where
  | succeed (payload : Nat)
  | fail (e : JSErr)
deriving DecidableEq, Repr

/-- Result value of an async call: a returned payload or a thrown error. -/
inductive Outcome where
  | ok (payload : Nat)
  | thrown (e : JSErr)
deriving DecidableEq, Repr

/-- Result of a full `extractProfileWithRetry` call: the returned payload or
thrown error, how many times the unit of work was invoked, and the backoff
delays slept (the `await this.delay(delay)` calls of line 338; the simulated
API latency of line 277 is not a backoff delay). -/
structure ExtractRun where
  result : Outcome
  attemptsMade : Nat
  backoffDelays : List Nat
deriving DecidableEq, Repr

/-- Initial backoff delay of `extractProfileWithRetry` (`let delay = 1000`). -/
def initialBackoffDelay : Nat := 1000

/-- The `while (retryCount < maxRetries)` loop of `extractProfileWithRetry`
(job-queue.ts lines 274-341). `fuel` is `maxRetries - retryCount`, the number
of loop iterations still permitted; `made` counts invocations so far. On a
failure the error is rethrown at once when its kind is `access_restricted` or
`not_found` (line 328) or when the incremented retry count reaches
`maxRetries` (line 333); otherwise the current delay is slept and doubled. -/
def extractLoop (attempts : Nat → Attempt) (made delay : Nat) (acc : List Nat) :
    Nat → ExtractRun
  | 0 => ⟨.thrown (.error "Max retries exceeded"), made, acc.reverse⟩
  | fuel + 1 =>
      match attempts made with
      | .succeed p => ⟨.ok p, made + 1, acc.reverse⟩
      | .fail e =>
          if categorizeError e = ACCESS_RESTRICTED ∨ categorizeError e = NOT_FOUND then
            ⟨.thrown e, made + 1, acc.reverse⟩
          else if fuel = 0 then
            ⟨.thrown e, made + 1, acc.reverse⟩
          else
            extractLoop attempts (made + 1) (delay * 2) (delay :: acc) fuel

/-- Model of `JobQueue.extractProfileWithRetry` (job-queue.ts lines 266-344). -/
def extractProfileWithRetry (attempts : Nat → Attempt) (maxRetries : Nat) : ExtractRun :=
  extractLoop attempts 0 initialBackoffDelay [] maxRetries

example : categorizeError (.error "rate limit exceeded") = RATE_LIMIT := by decide

example : categorizeError (.error "Simulated LinkedIn API error: profile_not_found") =
    UNKNOWN := by decide

example : categorizeError (.error "challenge 404") = CAPTCHA := by decide

example : categorizeError .nonError = UNKNOWN := by decide

example :
    extractProfileWithRetry (fun _ => .fail (.error "rate limit exceeded")) 3 =
      ⟨.thrown (.error "rate limit exceeded"), 3, [1000, 2000]⟩ := by decide

example :
    extractProfileWithRetry (fun _ => .fail (.error "got a 404")) 3 =
      ⟨.thrown (.error "got a 404"), 1, []⟩ := by decide

/-- Per-item persisted status values written by the scheduler: records are
created `pending` and updated to `success`, `retrying` or `failed`. -/
inductive PStatus where
  | pending | success | retrying | failed
deriving DecidableEq, Repr

/-- A persisted profile record (`storage.ts` `createProfile`: new records get
`status: 'pending'`, `retryCount: 0`, no error fields, no payload; the payload
and timestamp fields are abstracted to presence flags). -/
structure ProfileRecord where
  id : Nat
  jobId : Nat
  linkedinUrl : String
  status : PStatus
  retryCount : Nat
  errorType : Option String
  errorMessage : Option String
  hasProfileData : Bool
deriving DecidableEq, Repr

/-- The profile table of the storage collaborator, in insertion order (a JS
`Map` iterates in insertion order, and `getProfilesByJob` filters it). -/
structure Store where
  profiles : List ProfileRecord
  nextProfileId : Nat
deriving DecidableEq, Repr

/-- Model of `storage.getProfilesByJob`: records of one job, insertion order. -/
def getProfilesByJob (st : Store) (jobId : Nat) : List ProfileRecord :=
  st.profiles.filter (fun p => p.jobId == jobId)

/-- Model of `storage.createProfile` as called by `processJob` (job-queue.ts
lines 118-124): append a fresh `pending` record with `retryCount = 0`. -/
def createProfile (st : Store) (jobId : Nat) (url : String) : Store :=
  let fresh : ProfileRecord :=
    { id := st.nextProfileId, jobId := jobId, linkedinUrl := url,
      status := .pending, retryCount := 0, errorType := none,
      errorMessage := none, hasProfileData := false }
  { profiles := st.profiles ++ [fresh], nextProfileId := st.nextProfileId + 1 }

/-- Model of `storage.updateProfileStatus`: read-modify-write of the record
with the given id, keeping its position. -/
def updateProfileById (st : Store) (pid : Nat) (f : ProfileRecord → ProfileRecord) :
    Store :=
  { st with profiles := st.profiles.map (fun p => if p.id == pid then f p else p) }

/-- The record lookup of job-queue.ts lines 157-158 / 170-171: the first record
of the job whose `linkedinUrl` equals the processed URL. -/
def findByUrl (st : Store) (jobId : Nat) (url : String) : Option ProfileRecord :=
  (getProfilesByJob st jobId).find? (fun p => p.linkedinUrl == url)

/-- A JavaScript number as it arises in the rate/ETA computation: a finite
rational, an infinity, or NaN. (IEEE-754 rounding of in-range finite values is
abstracted to exact rational arithmetic; the special values, which are what the
claims turn on, follow the JS rules exactly.) -/
inductive JSNum where
  | fin (q : ℚ)
  | posInf | negInf | nan
deriving DecidableEq, Repr

/-- JS division of finite numbers: division by zero gives a signed infinity,
0/0 gives NaN. -/
def jsDiv (a b : ℚ) : JSNum :=
  if b = 0 then (if a = 0 then .nan else if 0 < a then .posInf else .negInf)
  else .fin (a / b)

/-- JS division of a finite numerator by a possibly special denominator: a
finite value divided by an infinity is 0, by NaN is NaN. -/
def jsDivN (a : ℚ) : JSNum → JSNum
  | .fin q => jsDiv a q
  | .posInf => .fin 0
  | .negInf => .fin 0
  | .nan => .nan

/-- The numeric value of `parseFloat(x.toFixed(1))`: finite values are rounded
to one decimal digit; `Infinity` and `NaN` round-trip through the strings
`"Infinity"` / `"NaN"` unchanged. -/
def toFixed1RoundTrip : JSNum → JSNum
  | .fin q => .fin (((round (q * 10) : ℤ) : ℚ) / 10)
  | x => x

/-- The `estimatedCompletion` value: `null`, an `Invalid Date` (from a
non-finite timestamp), or a finite date. -/
inductive Eta where
  | null
  | invalidDate
  | time (t : ℚ)
deriving DecidableEq, Repr

/-- A rate/ETA pair as persisted by one progress update. -/
structure RateEta where
  rate : JSNum
  eta : Eta
deriving DecidableEq, Repr

/-- Model of the progress computation of job-queue.ts lines 196-199:
`rate = (processed / (elapsed / 1000 / 60)).toFixed(1)` (profiles per minute,
persisted as a string and parsed back with `parseFloat` for the ETA),
`remaining = total - processed`, and
`eta = remaining > 0 ? new Date(now + (remaining / rate) * 60 * 1000) : null`.
`elapsedMs` is `Date.now() - startTime` and `now` the `Date.now()` of the ETA
computation. -/
def computeRateEta (processed elapsedMs total : Nat) (now : ℚ) : RateEta :=
  let rate := toFixed1RoundTrip (jsDiv (processed : ℚ) ((elapsedMs : ℚ) / 1000 / 60))
  let remaining : ℤ := (total : ℤ) - (processed : ℤ)
  let eta :=
    if 0 < remaining then
      match jsDivN (remaining : ℚ) rate with
      | .fin m => Eta.time (now + m * 60 * 1000)
      | _ => Eta.invalidDate
    else Eta.null
  ⟨rate, eta⟩

/-- In-memory status values of a `ProcessingJob` (job-queue.ts line 20). -/
inductive JStatus where
  | pending | processing | paused | completed | failed
deriving DecidableEq, Repr

/-- The transient in-memory processing record the queue holds per job
(job-queue.ts lines 17-22), with its `JobData` parameters inlined. -/
structure ProcessingJob where
  id : Nat
  jobId : Nat
  batchSize : Nat
  status : JStatus
  retryCount : Nat
deriving DecidableEq, Repr

/-- The mutable state of the `JobQueue` instance: the job map (a JS `Map` in
insertion order), the `processing` flag and the id counter. -/
structure QueueState where
  jobs : List (Nat × ProcessingJob)
  processing : Bool
  currentJobId : Nat
deriving DecidableEq, Repr

/-- JS `Map.get` on the job map. -/
def mapGet (m : List (Nat × ProcessingJob)) (k : Nat) : Option ProcessingJob :=
  (m.find? (fun kv => kv.1 == k)).map (fun kv => kv.2)

/-- Mutation of the job object stored under an existing key (the source mutates
the object held by the map, so its position is unchanged). -/
def mapSet (m : List (Nat × ProcessingJob)) (k : Nat) (j : ProcessingJob) :
    List (Nat × ProcessingJob) :=
  m.map (fun kv => if kv.1 = k then (k, j) else kv)

/-- Model of `JobQueue.addJob` (job-queue.ts lines 34-50): insert a `pending`
record under the next id and return the id. (The `startProcessing` kick-off is
part of the processing-loop model, not of the state update.) -/
def addJob (s : QueueState) (jobId batchSize : Nat) : QueueState × Nat :=
  let newId := s.currentJobId
  let job : ProcessingJob :=
    { id := newId, jobId := jobId, batchSize := batchSize, status := .pending,
      retryCount := 0 }
  ({ s with jobs := s.jobs ++ [(newId, job)], currentJobId := s.currentJobId + 1 }, newId)

/-- Model of `JobQueue.pauseJob` (job-queue.ts lines 52-57): set a `processing`
job to `paused`; silently do nothing otherwise. -/
def pauseJob (s : QueueState) (jobId : Nat) : QueueState :=
  match mapGet s.jobs jobId with
  | some job =>
      if job.status = .processing then
        { s with jobs := mapSet s.jobs jobId { job with status := .paused } }
      else s
  | none => s

/-- Model of `JobQueue.stopJob` (job-queue.ts lines 59-64): set any present job
to `failed`; the record is not removed from the map. -/
def stopJob (s : QueueState) (jobId : Nat) : QueueState :=
  match mapGet s.jobs jobId with
  | some job => { s with jobs := mapSet s.jobs jobId { job with status := .failed } }
  | none => s

/-- Model of `JobQueue.resumeJob` (job-queue.ts lines 66-74): set a `paused`
job back to `pending` (which makes the processing loop pick it up again and
rerun `processJob` on it from the start). -/
def resumeJob (s : QueueState) (jobId : Nat) : QueueState :=
  match mapGet s.jobs jobId with
  | some job =>
      if job.status = .paused then
        { s with jobs := mapSet s.jobs jobId { job with status := .pending } }
      else s
  | none => s

/-- One persisted `updateJobStatus` call of a `processJob` run. `started` is
the initial `('processing', startedAt)` update; `progress` carries the
per-item counters with the rate/ETA; `completedUpd` is the terminal
`('completed', completedAt, resultPath)` update and `failedUpd` the terminal
`('failed', completedAt)` update of the catch path. -/
inductive JobUpd where
  | started
  | progress (processed successful failed : Nat) (rate : JSNum) (eta : Eta)
  | completedUpd
  | failedUpd
deriving DecidableEq, Repr

/-- Environment of one `processJob` run: the collaborators' behaviour and the
externally-interleaved mutations. `urls` is what `excelParser.parseLinkedInUrls`
returns; `hasToken` whether `storage.getUser` yields a LinkedIn access token;
`attempts i k` the outcome of the k-th invocation of the simulated extraction
for the item at index `i`; `obs b` the in-memory status of the job as read by
the batch-boundary check before batch `b` (`pauseJob`/`stopJob` calls land
during awaits and become visible here; `none` models a record missing from the
map); `elapsedAt p` is `Date.now() - startTime` in ms at the progress update
with `processed = p`, and `nowAt p` the `Date.now()` used for its ETA. -/
structure RunEnv where
  urls : List String
  hasToken : Bool
  attempts : Nat → Nat → Attempt
  obs : Nat → Option JStatus
  elapsedAt : Nat → Nat
  nowAt : Nat → ℚ

/-- Running counters and effects of the batch loop. -/
structure LoopState where
  store : Store
  trace : List JobUpd
  processed : Nat
  successful : Nat
  failed : Nat

/-- How the batch loop ended: all items consumed, interrupted by the
batch-boundary status check, or (degenerate `batchSize = 0` with items left
and a never-changing status) never advancing. -/
inductive LoopExit where
  | finished | interrupted | stuck
deriving DecidableEq, Repr

/-- Per-item body of the batch loop (job-queue.ts lines 148-211): run the
extraction with `maxRetries = 3`; on success mark the first record with the
item's URL `success` (keeping its `retryCount`); on failure classify the
error, increment the record's `retryCount` and mark it `retrying` when
`retryCount < 3` and the kind is neither `not_found` nor `access_restricted`,
else `failed`; bump exactly one of the successful/failed counters together
with `processed`; then persist a progress update with the recomputed
rate/ETA. -/
def processItem (env : RunEnv) (jobId idx : Nat) (url : String) (ls : LoopState) :
    LoopState :=
  let run := extractProfileWithRetry (env.attempts idx) 3
  let next :=
    match run.result with
    | .ok _ =>
        let st' :=
          match findByUrl ls.store jobId url with
          | some p => updateProfileById ls.store p.id (fun q =>
              { q with status := .success, hasProfileData := true })
          | none => ls.store
        (st', ls.successful + 1, ls.failed)
    | .thrown e =>
        let st' :=
          match findByUrl ls.store jobId url with
          | some p =>
              let errorType := categorizeError e
              let rc := p.retryCount + 1
              let shouldRetry : Bool :=
                rc < 3 && !(errorType == NOT_FOUND) && !(errorType == ACCESS_RESTRICTED)
              updateProfileById ls.store p.id (fun q =>
                { q with status := if shouldRetry then .retrying else .failed,
                         errorType := some errorType,
                         errorMessage := some (match e with
                           | .error m => m
                           | .nonError => "Unknown error"),
                         retryCount := rc })
          | none => ls.store
        (st', ls.successful, ls.failed + 1)
  let processed' := ls.processed + 1
  let re := computeRateEta processed' (env.elapsedAt processed') env.urls.length
    (env.nowAt processed')
  { store := next.1,
    trace := ls.trace ++ [.progress processed' next.2.1 next.2.2 re.rate re.eta],
    processed := processed', successful := next.2.1, failed := next.2.2 }

/-- The inner `for (const urlData of batch)` loop over one batch, items paired
with their absolute index. -/
def processItems (env : RunEnv) (jobId : Nat) (batch : List (Nat × String))
    (ls : LoopState) : LoopState :=
  match batch with
  | [] => ls
  | (idx, url) :: rest => processItems env jobId rest (processItem env jobId idx url ls)

/-- The outer `for (let i = 0; i < urls.length; i += batchSize)` loop
(job-queue.ts lines 139-215): before each batch, re-read the in-memory job
status and return at once if it is no longer `processing` (line 142); then
process the batch. With `batchSize = 0` and items remaining the source loop
never consumes an item (it either returns at a later boundary check or spins
forever); that degenerate case is modelled as `stuck` once the boundary check
passes, and no claim is made about it. -/
def runBatchesAux (env : RunEnv) (jobId batchSize : Nat) :
    Nat → List (Nat × String) → Nat → LoopState → LoopState × LoopExit
  | _, [], _, ls => (ls, .finished)
  | 0, _ :: _, _, ls => (ls, .stuck)
  | fuel + 1, item :: rest, b, ls =>
      if env.obs b = some JStatus.processing then
        if batchSize = 0 then (ls, .stuck)
        else
          runBatchesAux env jobId batchSize fuel ((item :: rest).drop batchSize) (b + 1)
            (processItems env jobId ((item :: rest).take batchSize) ls)
      else (ls, .interrupted)

/-- The outer batch loop with its fuel instantiated: every iteration with
`batchSize ≥ 1` consumes at least one item, so `items.length` bounds the number
of iterations and the fuel-exhaustion branch is unreachable. -/
def runBatches (env : RunEnv) (jobId batchSize : Nat) (items : List (Nat × String))
    (b : Nat) (ls : LoopState) : LoopState × LoopExit :=
  runBatchesAux env jobId batchSize items.length items b ls

/-- How one `processJob` run ended: loop finished and the terminal `completed`
update was persisted (the record is then deleted from the map, line 253); the
boundary check returned early (no cleanup, line 143); the catch path persisted
`failed` and deleted the record (lines 256-262); or the degenerate stuck
case. -/
inductive RunOutcome where
  | completedRun | earlyReturn | crashed | neverEnds
deriving DecidableEq, Repr

/-- Everything observable about one `processJob` run: the final storage state,
the ordered `updateJobStatus` trace, the final loop counters, the run outcome,
whether `this.jobs.delete(job.id)` was executed, and the message of the
exception that reached the catch path, if any. -/
structure RunResult where
  store : Store
  trace : List JobUpd
  processed : Nat
  successful : Nat
  failed : Nat
  outcome : RunOutcome
  removesRecord : Bool
  crashMessage : Option String

/-- Model of `JobQueue.processJob` (job-queue.ts lines 101-264): persist
`processing`, materialize the item list (throwing when it is empty, line 114,
before any record is created), create one `pending` record per URL, require
the user's access token (line 128), then drive the batch loop; on a finished
loop persist `completed` and delete the in-memory record, and on any escaped
exception persist `failed` (with `completedAt`) and delete the record. -/
def processJob (env : RunEnv) (jobId batchSize : Nat) (st : Store) : RunResult :=
  if env.urls.isEmpty then
    { store := st, trace := [.started, .failedUpd], processed := 0, successful := 0,
      failed := 0, outcome := .crashed, removesRecord := true,
      crashMessage := some "No LinkedIn URLs found in the uploaded file" }
  else
    let st1 := env.urls.foldl (fun acc url => createProfile acc jobId url) st
    if env.hasToken then
      let start : LoopState := ⟨st1, [.started], 0, 0, 0⟩
      let res := runBatches env jobId batchSize env.urls.enum 0 start
      match res.2 with
      | .finished =>
          { store := res.1.store, trace := res.1.trace ++ [.completedUpd],
            processed := res.1.processed, successful := res.1.successful,
            failed := res.1.failed, outcome := .completedRun, removesRecord := true,
            crashMessage := none }
      | .interrupted =>
          { store := res.1.store, trace := res.1.trace,
            processed := res.1.processed, successful := res.1.successful,
            failed := res.1.failed, outcome := .earlyReturn, removesRecord := false,
            crashMessage := none }
      | .stuck =>
          { store := res.1.store, trace := res.1.trace,
            processed := res.1.processed, successful := res.1.successful,
            failed := res.1.failed, outcome := .neverEnds, removesRecord := false,
            crashMessage := none }
    else
      { store := st1, trace := [.started, .failedUpd], processed := 0, successful := 0,
        failed := 0, outcome := .crashed, removesRecord := true,
        crashMessage := some "LinkedIn authentication required" }

/-- A storage state with no profile records. -/
def emptyStore : Store := ⟨[], 1⟩

/-- Scenario of the end-to-end claim: five items, the ones at indices 1 and 3
always fail with "rate limit exceeded", the rest always succeed; the job is
never paused or stopped. -/
def endToEndEnv : RunEnv :=
  { urls := ["u0", "u1", "u2", "u3", "u4"],
    hasToken := true,
    attempts := fun i _ =>
      if i = 1 ∨ i = 3 then .fail (.error "rate limit exceeded") else .succeed 0,
    obs := fun _ => some .processing,
    elapsedAt := fun _ => 60000,
    nowAt := fun _ => 0 }

example : (processJob endToEndEnv 7 2 emptyStore).successful = 3 := by decide

example : (processJob endToEndEnv 7 2 emptyStore).failed = 2 := by decide

example : (processJob endToEndEnv 7 2 emptyStore).outcome = .completedRun := by decide

example :
    (findByUrl (processJob endToEndEnv 7 2 emptyStore).store 7 "u1").map
      (fun p => (p.status, p.retryCount, p.errorType)) =
    some (.retrying, 1, some RATE_LIMIT) := by decide

/-- Scenario of the pause claim, first run: two items in batches of one, both
succeeding when attempted; a `pauseJob` lands during the first batch, so the
boundary check before the second batch observes `paused`. -/
def pausedRunEnv : RunEnv :=
  { urls := ["a", "b"], hasToken := true,
    attempts := fun _ _ => .succeed 0,
    obs := fun b => if b = 0 then some .processing else some .paused,
    elapsedAt := fun _ => 60000, nowAt := fun _ => 0 }

/-- Scenario of the pause claim, resumed run: same job parameters, never
interrupted again; the item at index 0 now always fails with a "404" message
(so that any re-processing of its already-successful record is visible). -/
def resumedRunEnv : RunEnv :=
  { urls := ["a", "b"], hasToken := true,
    attempts := fun i _ => if i = 0 then .fail (.error "http 404") else .succeed 0,
    obs := fun _ => some .processing,
    elapsedAt := fun _ => 60000, nowAt := fun _ => 0 }

example : (processJob pausedRunEnv 5 1 emptyStore).outcome = .earlyReturn := by decide

example :
    (getProfilesByJob (processJob pausedRunEnv 5 1 emptyStore).store 5).map
      (fun p => (p.linkedinUrl, p.status)) =
    [("a", .success), ("b", .pending)] := by decide

example :
    (getProfilesByJob
      (processJob resumedRunEnv 5 1 (processJob pausedRunEnv 5 1 emptyStore).store).store
      5).map (fun p => (p.id, p.linkedinUrl, p.status)) =
    [(1, "a", .failed), (2, "b", .success), (3, "a", .pending), (4, "b", .pending)] := by
  decide

example : (computeRateEta 1 0 5 0).rate = .posInf := by
  norm_num [computeRateEta, jsDiv, jsDivN, toFixed1RoundTrip]

example : (computeRateEta 1 0 5 0).eta = .time 0 := by
  norm_num [computeRateEta, jsDiv, jsDivN, toFixed1RoundTrip]

example : (computeRateEta 1 60000000 5 0).rate = .fin 0 := by
  norm_num [computeRateEta, jsDiv, jsDivN, toFixed1RoundTrip, round_eq]

example : (computeRateEta 1 60000000 5 0).eta = .invalidDate := by
  norm_num [computeRateEta, jsDiv, jsDivN, toFixed1RoundTrip, round_eq]

example : (computeRateEta 5 60000 5 0).eta = .null := by
  norm_num [computeRateEta, jsDiv, jsDivN, toFixed1RoundTrip]

/-- A queue holding a single in-memory record in `processing` status, as the
loop leaves it after dequeueing the job added first. -/
def demoProcessingQueue : QueueState :=
  ⟨[(1, { id := 1, jobId := 101, batchSize := 2, status := .processing,
          retryCount := 0 })], true, 2⟩

/-- An uninterrupted single-item run that succeeds: the smallest scenario in
which the loop persists a progress update and completes. -/
def tinyEnv : RunEnv :=
  { urls := ["x"], hasToken := true, attempts := fun _ _ => .succeed 0,
    obs := fun _ => some .processing, elapsedAt := fun _ => 60000,
    nowAt := fun _ => 0 }

/-- A unit of work failing twice with "rate limit exceeded" then succeeding. -/
def flakyAttempts : Nat → Attempt :=
  fun k => if k < 2 then .fail (.error "rate limit exceeded") else .succeed 7

/-- Invariant tying a loop state to its persisted trace: the running counters
balance and every persisted progress update balances. -/
def goodTrace (ls : LoopState) : Prop :=
  ls.processed = ls.successful + ls.failed ∧
  ∀ p s f r e, JobUpd.progress p s f r e ∈ ls.trace → p = s + f

/-- A scenario whose item list is empty (the uploaded file contains no
LinkedIn URLs). -/
def noUrlsEnv : RunEnv :=
  { urls := [], hasToken := true, attempts := fun _ _ => .succeed 0,
    obs := fun _ => some .processing, elapsedAt := fun _ => 60000,
    nowAt := fun _ => 0 }

/-- A queue holding one `paused` in-memory record, as a pause mid-run leaves
it. -/
def demoPausedQueue : QueueState :=
  ⟨[(1, { id := 1, jobId := 5, batchSize := 1, status := .paused,
          retryCount := 0 })], false, 2⟩

theorem mapGet_mapSet_self (m : List (Nat × ProcessingJob)) (k : Nat)
    (j j0 : ProcessingJob) (h : mapGet m k = some j0) :
    mapGet (mapSet m k j) k = some j := by
  induction m with
  | nil => simp [mapGet] at h
  | cons kv rest ih =>
      by_cases hk : kv.1 = k
      · unfold mapGet mapSet
        simp only [List.map_cons, if_pos hk]
        rw [List.find?_cons_of_pos _ (by simp)]
        simp
      · unfold mapGet at h ⊢
        unfold mapSet
        simp only [List.map_cons, if_neg hk]
        rw [List.find?_cons_of_neg _ (by simpa using hk)]
        rw [List.find?_cons_of_neg _ (by simpa using hk)] at h
        exact ih h

theorem mapGet_mapSet_other (m : List (Nat × ProcessingJob)) (k kx : Nat)
    (j : ProcessingJob) (h : kx ≠ k) :
    mapGet (mapSet m k j) kx = mapGet m kx := by
  induction m with
  | nil => simp [mapGet, mapSet]
  | cons kv rest ih =>
      by_cases hk : kv.1 = k
      · unfold mapGet mapSet
        simp only [List.map_cons, if_pos hk]
        rw [List.find?_cons_of_neg _ (by simp; exact fun e => h e.symm)]
        rw [List.find?_cons_of_neg _ (by simp [hk]; exact fun e => h e.symm)]
        exact ih
      · unfold mapGet mapSet
        simp only [List.map_cons, if_neg hk]
        by_cases hkx : kv.1 = kx
        · rw [List.find?_cons_of_pos _ (by simpa using hkx),
            List.find?_cons_of_pos _ (by simpa using hkx)]
        · rw [List.find?_cons_of_neg _ (by simpa using hkx),
            List.find?_cons_of_neg _ (by simpa using hkx)]
          exact ih

theorem mapSet_length (m : List (Nat × ProcessingJob)) (k : Nat) (j : ProcessingJob) :
    (mapSet m k j).length = m.length := by
  simp [mapSet]

theorem pauseJob_eq_processing (s : QueueState) (id : Nat) (j : ProcessingJob)
    (hj : mapGet s.jobs id = some j) (hst : j.status = JStatus.processing) :
    pauseJob s id = { s with jobs := mapSet s.jobs id { j with status := JStatus.paused } } := by
  simp only [pauseJob, hj, if_pos hst]

theorem pauseJob_eq_other (s : QueueState) (id : Nat) (j : ProcessingJob)
    (hj : mapGet s.jobs id = some j) (hst : j.status ≠ JStatus.processing) :
    pauseJob s id = s := by
  simp only [pauseJob, hj, if_neg hst]

theorem pauseJob_eq_absent (s : QueueState) (id : Nat)
    (hj : mapGet s.jobs id = none) : pauseJob s id = s := by
  simp only [pauseJob, hj]

/-- C9: `pauseJob` is guarded and idempotent: on a job whose in-memory status
is `processing` it sets the status to `paused` (no other key and no other
queue field is touched); on a job in any other status, or an id not in the
map, it returns the queue state unchanged and raises no error; applying it
twice equals applying it once. -/
theorem pauseJob_guarded_idempotent (s : QueueState) (id : Nat) :
    (∀ j, mapGet s.jobs id = some j → j.status = JStatus.processing →
        mapGet (pauseJob s id).jobs id = some { j with status := JStatus.paused } ∧
        (∀ k, k ≠ id → mapGet (pauseJob s id).jobs k = mapGet s.jobs k) ∧
        (pauseJob s id).processing = s.processing ∧
        (pauseJob s id).currentJobId = s.currentJobId) ∧
    (∀ j, mapGet s.jobs id = some j → j.status ≠ JStatus.processing →
        pauseJob s id = s) ∧
    (mapGet s.jobs id = none → pauseJob s id = s) ∧
    pauseJob (pauseJob s id) id = pauseJob s id := by
  refine ⟨?_, ?_, ?_, ?_⟩
  · intro j hj hst
    rw [pauseJob_eq_processing s id j hj hst]
    exact ⟨mapGet_mapSet_self _ _ _ j hj,
      fun k hk => mapGet_mapSet_other _ _ _ _ hk, rfl, rfl⟩
  · intro j hj hst
    exact pauseJob_eq_other s id j hj hst
  · intro hj
    exact pauseJob_eq_absent s id hj
  · match hj : mapGet s.jobs id with
    | none =>
        rw [pauseJob_eq_absent s id hj, pauseJob_eq_absent s id hj]
    | some j =>
        by_cases hst : j.status = JStatus.processing
        · rw [pauseJob_eq_processing s id j hj hst]
          exact pauseJob_eq_other _ id { j with status := JStatus.paused }
            (mapGet_mapSet_self _ _ _ j hj) (by simp)
        · rw [pauseJob_eq_other s id j hj hst, pauseJob_eq_other s id j hj hst]

/-- Witness for the pause claim at a concrete queue: the single `processing`
job is paused by `pauseJob` and the paused state is a fixed point of it. -/
theorem pauseJob_guarded_idempotent_witness :
    mapGet (pauseJob demoProcessingQueue 1).jobs 1 =
      some { id := 1, jobId := 101, batchSize := 2, status := JStatus.paused,
             retryCount := 0 } ∧
    pauseJob (pauseJob demoProcessingQueue 1) 1 = pauseJob demoProcessingQueue 1 :=
  ⟨((pauseJob_guarded_idempotent demoProcessingQueue 1).1
      { id := 1, jobId := 101, batchSize := 2, status := .processing, retryCount := 0 }
      (by decide) (by decide)).1,
   (pauseJob_guarded_idempotent demoProcessingQueue 1).2.2.2⟩

theorem stopJob_eq_present (s : QueueState) (id : Nat) (j : ProcessingJob)
    (hj : mapGet s.jobs id = some j) :
    stopJob s id =
      { s with jobs := mapSet s.jobs id { j with status := JStatus.failed } } := by
  simp only [stopJob, hj]

theorem processJob_removes_iff (env : RunEnv) (jobId batchSize : Nat) (st : Store) :
    (processJob env jobId batchSize st).removesRecord = true ↔
    ((processJob env jobId batchSize st).outcome = RunOutcome.completedRun ∨
      (processJob env jobId batchSize st).outcome = RunOutcome.crashed) := by
  simp only [processJob]
  split
  · simp
  · split
    · split <;> simp
    · simp

/-- C7 counterexample: stopping the job added to an empty queue leaves its
in-memory record in the job map in `failed` status, so the map does not
contain only pending/processing/paused records, and a job that reached a
terminal state via `stopJob` was not removed. -/
theorem stopJob_record_remains_counterexample :
    mapGet (stopJob (addJob ⟨[], false, 1⟩ 101 2).1 1).jobs 1 =
      some { id := 1, jobId := 101, batchSize := 2, status := JStatus.failed,
             retryCount := 0 } := by decide

/-- C7 (amended): the completion and catch paths of `processJob` do delete the
in-memory record, but `stopJob` only rewrites the status of a present record
to `failed` and never removes it, so after a `stopJob` the map retains a
record in terminal `failed` status. -/
theorem terminal_cleanup_amended (s : QueueState) (id : Nat) (env : RunEnv)
    (jobId batchSize : Nat) (st : Store) :
    (∀ j, mapGet s.jobs id = some j →
        mapGet (stopJob s id).jobs id = some { j with status := JStatus.failed } ∧
        (stopJob s id).jobs.length = s.jobs.length) ∧
    ((processJob env jobId batchSize st).outcome = RunOutcome.completedRun ∨
        (processJob env jobId batchSize st).outcome = RunOutcome.crashed →
        (processJob env jobId batchSize st).removesRecord = true) := by
  constructor
  · intro j hj
    rw [stopJob_eq_present s id j hj]
    exact ⟨mapGet_mapSet_self _ _ _ j hj, mapSet_length _ _ _⟩
  · intro hout
    exact (processJob_removes_iff env jobId batchSize st).mpr hout

/-- Witness for the cleanup claim: the concrete demo queue keeps its record
(now `failed`) after `stopJob`, and the concrete completed run deletes its
record. -/
theorem terminal_cleanup_amended_witness :
    mapGet (stopJob demoProcessingQueue 1).jobs 1 =
      some { id := 1, jobId := 101, batchSize := 2, status := JStatus.failed,
             retryCount := 0 } ∧
    (processJob tinyEnv 3 1 emptyStore).removesRecord = true :=
  ⟨((terminal_cleanup_amended demoProcessingQueue 1 tinyEnv 3 1 emptyStore).1
      { id := 1, jobId := 101, batchSize := 2, status := .processing, retryCount := 0 }
      (by decide)).1,
   (terminal_cleanup_amended demoProcessingQueue 1 tinyEnv 3 1 emptyStore).2
      (Or.inl (by decide))⟩

theorem extractLoop_always_unknown (attempts : Nat → Attempt)
    (h : ∀ k, attempts k = Attempt.fail JSErr.nonError) (made delay : Nat)
    (acc : List Nat) (fuel : Nat) :
    (extractLoop attempts made delay acc fuel).attemptsMade = made + fuel := by
  induction fuel generalizing made delay acc with
  | zero => simp [extractLoop]
  | succ n ih =>
      simp only [extractLoop, h made]
      rw [if_neg (by decide : ¬(categorizeError JSErr.nonError = ACCESS_RESTRICTED ∨
        categorizeError JSErr.nonError = NOT_FOUND))]
      by_cases hn : n = 0
      · subst hn; simp
      · rw [if_neg hn, ih]
        omega

/-- C10: `categorizeError` is total: every thrown value is classified as
exactly one of the five kinds, every non-`Error` value is classified
`unknown`, and a unit of work that always throws a non-`Error` value is
treated as retryable: the executor keeps invoking it until all `maxRetries`
attempts are used. -/
theorem categorizeError_total_retryable :
    (∀ e, categorizeError e = CAPTCHA ∨ categorizeError e = NOT_FOUND ∨
        categorizeError e = ACCESS_RESTRICTED ∨ categorizeError e = RATE_LIMIT ∨
        categorizeError e = UNKNOWN) ∧
    categorizeError JSErr.nonError = UNKNOWN ∧
    (∀ (attempts : Nat → Attempt) (maxRetries : Nat),
        (∀ k, attempts k = Attempt.fail JSErr.nonError) →
        (extractProfileWithRetry attempts maxRetries).attemptsMade = maxRetries) := by
  refine ⟨?_, by decide, ?_⟩
  · intro e
    cases e with
    | nonError => exact Or.inr (Or.inr (Or.inr (Or.inr rfl)))
    | error msg =>
        simp only [categorizeError]
        split
        · exact Or.inl rfl
        · split
          · exact Or.inr (Or.inl rfl)
          · split
            · exact Or.inr (Or.inr (Or.inl rfl))
            · split
              · exact Or.inr (Or.inr (Or.inr (Or.inl rfl)))
              · exact Or.inr (Or.inr (Or.inr (Or.inr rfl)))
  · intro attempts maxRetries h
    simpa [extractProfileWithRetry] using
      extractLoop_always_unknown attempts h 0 initialBackoffDelay [] maxRetries

/-- Witness: a unit of work that always throws a non-`Error` value under
`maxRetries = 3` is invoked all three times. -/
theorem categorizeError_total_retryable_witness :
    (extractProfileWithRetry (fun _ => Attempt.fail JSErr.nonError) 3).attemptsMade = 3 :=
  categorizeError_total_retryable.2.2 (fun _ => Attempt.fail JSErr.nonError) 3
    (fun _ => rfl)

theorem string_data_mk (l : List Char) : (String.mk l).data = l := rfl

/-- C3 (amended): failures classified `not_found` or `access_restricted` are
never retried: for every positive `maxRetries` the unit of work is invoked
exactly once, no backoff is slept, and the error propagates unchanged;
moreover a message containing "404" is classified `not_found` provided it does
not also match the earlier captcha/challenge test of the classifier. -/
theorem terminal_kinds_never_retried :
    (∀ (attempts : Nat → Attempt) (e : JSErr) (maxRetries : Nat),
        1 ≤ maxRetries → attempts 0 = Attempt.fail e →
        categorizeError e = NOT_FOUND ∨ categorizeError e = ACCESS_RESTRICTED →
        extractProfileWithRetry attempts maxRetries = ⟨Outcome.thrown e, 1, []⟩) ∧
    (∀ msg : String,
        subOccurs "404".data (lowerChars msg.data) = true →
        subOccurs "captcha".data (lowerChars msg.data) = false →
        subOccurs "challenge".data (lowerChars msg.data) = false →
        categorizeError (JSErr.error msg) = NOT_FOUND) := by
  constructor
  · intro attempts e maxRetries hmr h0 hterm
    obtain ⟨n, rfl⟩ : ∃ n, maxRetries = n + 1 :=
      ⟨maxRetries - 1, (Nat.succ_pred_eq_of_pos hmr).symm⟩
    show extractLoop attempts 0 initialBackoffDelay [] (n + 1) = _
    simp only [extractLoop, h0]
    rw [if_pos hterm.symm]
    rfl
  · intro msg h404 hcap hchal
    simp [categorizeError, includes, string_data_mk, hcap, hchal, h404]

/-- C3 counterexample: the message "challenge 404" contains "404" but is
classified `captcha`, which is retryable: with `maxRetries = 2` the unit of
work is invoked twice, not once, refuting the claim for arbitrary messages
containing "404". -/
theorem contains404_can_retry_counterexample :
    (extractProfileWithRetry (fun _ => .fail (.error "challenge 404")) 2).attemptsMade = 2 ∧
    categorizeError (.error "challenge 404") = CAPTCHA ∧ CAPTCHA ≠ NOT_FOUND := by
  decide

/-- Witness: a plain "http 404" failure is thrown after a single invocation
even with `maxRetries = 5`, and classified `not_found`. -/
theorem terminal_kinds_never_retried_witness :
    extractProfileWithRetry (fun _ => .fail (.error "http 404")) 5 =
      ⟨Outcome.thrown (.error "http 404"), 1, []⟩ ∧
    categorizeError (JSErr.error "HTTP 404") = NOT_FOUND :=
  ⟨terminal_kinds_never_retried.1 _ (.error "http 404") 5 (by norm_num) rfl
      (Or.inl (by decide)),
   terminal_kinds_never_retried.2 "HTTP 404" (by decide) (by decide) (by decide)⟩

theorem extractLoop_step_retry (attempts : Nat → Attempt) (made delay : Nat)
    (acc : List Nat) (fuel : Nat) (e : JSErr) (hA : attempts made = .fail e)
    (hr : ¬(categorizeError e = ACCESS_RESTRICTED ∨ categorizeError e = NOT_FOUND))
    (hf : fuel ≠ 0) :
    extractLoop attempts made delay acc (fuel + 1) =
      extractLoop attempts (made + 1) (delay * 2) (delay :: acc) fuel := by
  simp only [extractLoop, hA]
  rw [if_neg hr, if_neg hf]

theorem extractLoop_step_ok (attempts : Nat → Attempt) (made delay : Nat)
    (acc : List Nat) (fuel p : Nat) (hA : attempts made = .succeed p) :
    extractLoop attempts made delay acc (fuel + 1) = ⟨.ok p, made + 1, acc.reverse⟩ := by
  simp only [extractLoop, hA]

/-- C6: a unit of work that fails twice with retryable kinds and then succeeds
returns the success result under `maxRetries = 3`, and the backoff delays
slept before the second and third attempts are `initialBackoffDelay` and
`2 * initialBackoffDelay` (the delay doubles after each failure), so the total
backoff slept is at least their sum. -/
theorem backoff_two_failures_then_success (attempts : Nat → Attempt) (e0 e1 : JSErr)
    (p : Nat) (h0 : attempts 0 = Attempt.fail e0) (h1 : attempts 1 = Attempt.fail e1)
    (h2 : attempts 2 = Attempt.succeed p)
    (r0 : ¬(categorizeError e0 = ACCESS_RESTRICTED ∨ categorizeError e0 = NOT_FOUND))
    (r1 : ¬(categorizeError e1 = ACCESS_RESTRICTED ∨ categorizeError e1 = NOT_FOUND)) :
    extractProfileWithRetry attempts 3 =
      ⟨Outcome.ok p, 3, [initialBackoffDelay, 2 * initialBackoffDelay]⟩ ∧
    initialBackoffDelay + 2 * initialBackoffDelay ≤
      (extractProfileWithRetry attempts 3).backoffDelays.sum := by
  have hrun : extractProfileWithRetry attempts 3 =
      ⟨Outcome.ok p, 3, [initialBackoffDelay, 2 * initialBackoffDelay]⟩ := by
    calc extractProfileWithRetry attempts 3
        = extractLoop attempts 0 initialBackoffDelay [] (2 + 1) := rfl
      _ = extractLoop attempts 1 (initialBackoffDelay * 2) [initialBackoffDelay]
            (1 + 1) :=
          extractLoop_step_retry attempts 0 initialBackoffDelay [] 2 e0 h0 r0
            (by norm_num)
      _ = extractLoop attempts 2 (initialBackoffDelay * 2 * 2)
            (initialBackoffDelay * 2 :: [initialBackoffDelay]) (0 + 1) :=
          extractLoop_step_retry attempts 1 (initialBackoffDelay * 2)
            [initialBackoffDelay] 1 e1 h1 r1 one_ne_zero
      _ = ⟨Outcome.ok p, 3, [initialBackoffDelay, 2 * initialBackoffDelay]⟩ := by
          rw [extractLoop_step_ok attempts 2 (initialBackoffDelay * 2 * 2)
            (initialBackoffDelay * 2 :: [initialBackoffDelay]) 0 p h2]
          simp [Nat.mul_comm]
  refine ⟨hrun, ?_⟩
  rw [hrun]
  simp

/-- Witness: the concrete flaky unit of work returns its payload on the third
attempt with backoff delays 1000 ms and 2000 ms. -/
theorem backoff_two_failures_then_success_witness :
    extractProfileWithRetry flakyAttempts 3 =
      ⟨Outcome.ok 7, 3, [initialBackoffDelay, 2 * initialBackoffDelay]⟩ :=
  (backoff_two_failures_then_success flakyAttempts (.error "rate limit exceeded")
    (.error "rate limit exceeded") 7 rfl rfl rfl (by decide) (by decide)).1

theorem computeRateEta_eta_shape (processed elapsedMs total : Nat) (now : ℚ) :
    (computeRateEta processed elapsedMs total now).eta =
      (if 0 < (total : ℤ) - (processed : ℤ) then
        (match jsDivN (((total : ℤ) - (processed : ℤ) : ℤ) : ℚ)
            (toFixed1RoundTrip (jsDiv (processed : ℚ) ((elapsedMs : ℚ) / 1000 / 60))) with
          | .fin m => Eta.time (now + m * 60 * 1000)
          | _ => Eta.invalidDate)
       else Eta.null) := rfl

/-- C5 (amended): the tracker computes `rate = processed / elapsedMinutes`
formatted to one decimal; when elapsed is 0 and at least one item has been
processed the rate is `Infinity`, not 0; with positive elapsed time the rate
is a finite number; `eta` is `null` exactly when no items remain; and when
items remain but the formatted rate parses to 0 the eta is an `Invalid Date`,
not `null`. -/
theorem computeRateEta_contract (processed elapsedMs total : Nat) (now : ℚ) :
    (0 < processed → (computeRateEta processed 0 total now).rate = JSNum.posInf) ∧
    (0 < elapsedMs → ∃ q : ℚ,
        (computeRateEta processed elapsedMs total now).rate = JSNum.fin q) ∧
    ((computeRateEta processed elapsedMs total now).eta = Eta.null ↔
        total ≤ processed) ∧
    (processed < total →
        (computeRateEta processed elapsedMs total now).rate = JSNum.fin 0 →
        (computeRateEta processed elapsedMs total now).eta = Eta.invalidDate) := by
  refine ⟨?_, ?_, ?_, ?_⟩
  · intro hp
    show toFixed1RoundTrip
        (jsDiv (processed : ℚ) ((((0:Nat)) : ℚ) / 1000 / 60)) = JSNum.posInf
    have h0 : (((0:Nat)) : ℚ) / 1000 / 60 = 0 := by norm_num
    rw [h0]
    unfold jsDiv
    rw [if_pos rfl, if_neg (by exact_mod_cast hp.ne'),
      if_pos (by exact_mod_cast hp)]
    rfl
  · intro he
    have hb : ((elapsedMs : ℚ) / 1000 / 60) ≠ 0 := by
      have : (0:ℚ) < (elapsedMs : ℚ) := by exact_mod_cast he
      positivity
    refine ⟨((round ((processed : ℚ) / ((elapsedMs : ℚ) / 1000 / 60) * 10) : ℤ) : ℚ) / 10, ?_⟩
    show toFixed1RoundTrip
        (jsDiv (processed : ℚ) ((elapsedMs : ℚ) / 1000 / 60)) = _
    unfold jsDiv
    rw [if_neg hb]
    rfl
  · rw [computeRateEta_eta_shape]
    by_cases hlt : processed < total
    · rw [if_pos (by omega)]
      cases hdn : jsDivN (((total : ℤ) - (processed : ℤ) : ℤ) : ℚ)
          (toFixed1RoundTrip (jsDiv (processed : ℚ) ((elapsedMs : ℚ) / 1000 / 60))) with
      | fin m => simp only [hdn]; simp; omega
      | posInf => simp only [hdn]; simp; omega
      | negInf => simp only [hdn]; simp; omega
      | nan => simp only [hdn]; simp; omega
    · rw [if_neg (by omega)]
      simp
      omega
  · intro hlt hrate
    rw [computeRateEta_eta_shape, if_pos (by omega)]
    have hr : toFixed1RoundTrip
        (jsDiv (processed : ℚ) ((elapsedMs : ℚ) / 1000 / 60)) = JSNum.fin 0 := hrate
    rw [hr]
    have hrpos : (0:ℚ) < (((total : ℤ) - (processed : ℤ) : ℤ) : ℚ) := by
      have : (0:ℤ) < (total : ℤ) - (processed : ℤ) := by omega
      exact_mod_cast this
    simp only [jsDivN, jsDiv, if_pos rfl]
    rw [if_neg hrpos.ne', if_pos hrpos]
    simp

/-- C5 counterexample: at elapsed time 0 the persisted rate is `Infinity`, not
0 as claimed; and with items remaining and a formatted rate of 0 the eta is an
`Invalid Date` rather than `null`, so no part of the claimed guard exists. -/
theorem rate_eta_contract_counterexample :
    (computeRateEta 1 0 5 0).rate = JSNum.posInf ∧ JSNum.posInf ≠ JSNum.fin 0 ∧
    (computeRateEta 1 60000000 5 0).eta = Eta.invalidDate ∧
    Eta.invalidDate ≠ Eta.null := by
  refine ⟨?_, by simp, ?_, by simp⟩
  · norm_num [computeRateEta, jsDiv, jsDivN, toFixed1RoundTrip]
  · norm_num [computeRateEta, jsDiv, jsDivN, toFixed1RoundTrip, round_eq]

/-- Witness for the rate/eta contract at concrete inputs: infinite rate at
elapsed 0, finite rate at one minute, null eta when nothing remains, invalid
eta when the formatted rate is 0. -/
theorem computeRateEta_contract_witness :
    (computeRateEta 1 0 5 0).rate = JSNum.posInf ∧
    (∃ q : ℚ, (computeRateEta 2 60000 5 0).rate = JSNum.fin q) ∧
    (computeRateEta 5 60000 5 0).eta = Eta.null ∧
    (computeRateEta 1 60000000 5 0).eta = Eta.invalidDate :=
  ⟨(computeRateEta_contract 1 0 5 0).1 (by norm_num),
   (computeRateEta_contract 2 60000 5 0).2.1 (by norm_num),
   (computeRateEta_contract 5 60000 5 0).2.2.1.mpr (by norm_num),
   (computeRateEta_contract 1 60000000 5 0).2.2.2 (by norm_num)
     (by norm_num [computeRateEta, jsDiv, jsDivN, toFixed1RoundTrip, round_eq])⟩

theorem processItem_processed (env : RunEnv) (jobId idx : Nat) (url : String)
    (ls : LoopState) :
    (processItem env jobId idx url ls).processed = ls.processed + 1 := by
  cases hres : (extractProfileWithRetry (env.attempts idx) 3).result <;>
    simp [processItem, hres]

theorem processItem_sum (env : RunEnv) (jobId idx : Nat) (url : String)
    (ls : LoopState) :
    (processItem env jobId idx url ls).successful +
      (processItem env jobId idx url ls).failed = ls.successful + ls.failed + 1 := by
  cases hres : (extractProfileWithRetry (env.attempts idx) 3).result <;>
    simp [processItem, hres] <;> omega

theorem processItem_trace (env : RunEnv) (jobId idx : Nat) (url : String)
    (ls : LoopState) :
    ∃ r e, (processItem env jobId idx url ls).trace =
      ls.trace ++ [JobUpd.progress (ls.processed + 1)
        (processItem env jobId idx url ls).successful
        (processItem env jobId idx url ls).failed r e] := by
  refine ⟨(computeRateEta (ls.processed + 1) (env.elapsedAt (ls.processed + 1))
      env.urls.length (env.nowAt (ls.processed + 1))).rate,
    (computeRateEta (ls.processed + 1) (env.elapsedAt (ls.processed + 1))
      env.urls.length (env.nowAt (ls.processed + 1))).eta, ?_⟩
  cases hres : (extractProfileWithRetry (env.attempts idx) 3).result <;>
    simp [processItem, hres]

theorem processItem_storeLen (env : RunEnv) (jobId idx : Nat) (url : String)
    (ls : LoopState) :
    (processItem env jobId idx url ls).store.profiles.length =
      ls.store.profiles.length := by
  cases hres : (extractProfileWithRetry (env.attempts idx) 3).result <;>
    cases hfind : findByUrl ls.store jobId url <;>
      simp [processItem, hres, hfind, updateProfileById]

theorem processItem_good (env : RunEnv) (jobId idx : Nat) (url : String)
    (ls : LoopState) (h : goodTrace ls) :
    goodTrace (processItem env jobId idx url ls) := by
  obtain ⟨r, e, htr⟩ := processItem_trace env jobId idx url ls
  constructor
  · rw [processItem_processed env jobId idx url ls,
      processItem_sum env jobId idx url ls, h.1]
  · intro p s f r' e' hm
    rw [htr] at hm
    rcases List.mem_append.mp hm with hm | hm
    · exact h.2 p s f r' e' hm
    · simp only [List.mem_singleton, JobUpd.progress.injEq] at hm
      obtain ⟨hp, hs, hf, -, -⟩ := hm
      rw [hp, hs, hf, processItem_sum env jobId idx url ls, h.1]

theorem processItems_processed (env : RunEnv) (jobId : Nat) :
    ∀ (batch : List (Nat × String)) (ls : LoopState),
    (processItems env jobId batch ls).processed = ls.processed + batch.length := by
  intro batch
  induction batch with
  | nil => intro ls; simp [processItems]
  | cons hd tl ih =>
      intro ls
      obtain ⟨idx, url⟩ := hd
      simp only [processItems]
      rw [ih, processItem_processed]
      simp only [List.length_cons]
      omega

theorem processItems_sum (env : RunEnv) (jobId : Nat) :
    ∀ (batch : List (Nat × String)) (ls : LoopState),
    (processItems env jobId batch ls).successful +
      (processItems env jobId batch ls).failed =
      ls.successful + ls.failed + batch.length := by
  intro batch
  induction batch with
  | nil => intro ls; simp [processItems]
  | cons hd tl ih =>
      intro ls
      obtain ⟨idx, url⟩ := hd
      simp only [processItems]
      rw [ih, processItem_sum]
      simp only [List.length_cons]
      omega

theorem processItems_storeLen (env : RunEnv) (jobId : Nat) :
    ∀ (batch : List (Nat × String)) (ls : LoopState),
    (processItems env jobId batch ls).store.profiles.length =
      ls.store.profiles.length := by
  intro batch
  induction batch with
  | nil => intro ls; simp [processItems]
  | cons hd tl ih =>
      intro ls
      obtain ⟨idx, url⟩ := hd
      simp only [processItems]
      rw [ih, processItem_storeLen]

theorem processItems_good (env : RunEnv) (jobId : Nat) :
    ∀ (batch : List (Nat × String)) (ls : LoopState), goodTrace ls →
    goodTrace (processItems env jobId batch ls) := by
  intro batch
  induction batch with
  | nil => intro ls h; simpa [processItems] using h
  | cons hd tl ih =>
      intro ls h
      obtain ⟨idx, url⟩ := hd
      simp only [processItems]
      exact ih _ (processItem_good env jobId idx url ls h)

theorem runBatchesAux_good (env : RunEnv) (jobId batchSize : Nat) :
    ∀ (fuel : Nat) (items : List (Nat × String)) (b : Nat) (ls : LoopState),
    goodTrace ls →
    goodTrace (runBatchesAux env jobId batchSize fuel items b ls).1 := by
  intro fuel
  induction fuel with
  | zero =>
      intro items b ls h
      cases items <;> simpa [runBatchesAux] using h
  | succ n ih =>
      intro items b ls h
      cases items with
      | nil => simpa [runBatchesAux] using h
      | cons item rest =>
          simp only [runBatchesAux]
          by_cases hobs : env.obs b = some JStatus.processing
          · rw [if_pos hobs]
            by_cases hbs : batchSize = 0
            · rw [if_pos hbs]; exact h
            · rw [if_neg hbs]
              exact ih _ _ _ (processItems_good env jobId _ _ h)
          · rw [if_neg hobs]; exact h

theorem runBatchesAux_storeLen (env : RunEnv) (jobId batchSize : Nat) :
    ∀ (fuel : Nat) (items : List (Nat × String)) (b : Nat) (ls : LoopState),
    (runBatchesAux env jobId batchSize fuel items b ls).1.store.profiles.length =
      ls.store.profiles.length := by
  intro fuel
  induction fuel with
  | zero => intro items b ls; cases items <;> simp [runBatchesAux]
  | succ n ih =>
      intro items b ls
      cases items with
      | nil => simp [runBatchesAux]
      | cons item rest =>
          simp only [runBatchesAux]
          by_cases hobs : env.obs b = some JStatus.processing
          · rw [if_pos hobs]
            by_cases hbs : batchSize = 0
            · rw [if_pos hbs]
            · rw [if_neg hbs, ih, processItems_storeLen]
          · rw [if_neg hobs]

theorem runBatchesAux_completes (env : RunEnv) (jobId batchSize : Nat)
    (hobs : ∀ b, env.obs b = some JStatus.processing) (hbs : batchSize ≠ 0) :
    ∀ (fuel : Nat) (items : List (Nat × String)) (b : Nat) (ls : LoopState),
    items.length ≤ fuel →
    (runBatchesAux env jobId batchSize fuel items b ls).2 = LoopExit.finished ∧
    (runBatchesAux env jobId batchSize fuel items b ls).1.processed =
      ls.processed + items.length ∧
    (runBatchesAux env jobId batchSize fuel items b ls).1.successful +
      (runBatchesAux env jobId batchSize fuel items b ls).1.failed =
      ls.successful + ls.failed + items.length := by
  intro fuel
  induction fuel with
  | zero =>
      intro items b ls hlen
      cases items with
      | nil => simp [runBatchesAux]
      | cons item rest => simp at hlen
  | succ n ih =>
      intro items b ls hlen
      cases items with
      | nil => simp [runBatchesAux]
      | cons item rest =>
          simp only [runBatchesAux]
          rw [if_pos (hobs b), if_neg hbs]
          have hlen' : ((item :: rest).drop batchSize).length ≤ n := by
            simp only [List.length_drop, List.length_cons] at hlen ⊢
            omega
          obtain ⟨hfin, hproc, hsum⟩ := ih ((item :: rest).drop batchSize) (b + 1)
            (processItems env jobId ((item :: rest).take batchSize) ls) hlen'
          have htd : ((item :: rest).take batchSize).length +
              ((item :: rest).drop batchSize).length = (item :: rest).length := by
            simp only [List.length_take, List.length_drop, List.length_cons]
            omega
          refine ⟨hfin, ?_, ?_⟩
          · rw [hproc, processItems_processed]
            omega
          · rw [hsum, processItems_sum]
            omega

theorem foldl_createProfile_length (jobId : Nat) :
    ∀ (urls : List String) (st : Store),
    (urls.foldl (fun acc url => createProfile acc jobId url) st).profiles.length =
      st.profiles.length + urls.length := by
  intro urls
  induction urls with
  | nil => intro st; simp
  | cons u rest ih =>
      intro st
      simp only [List.foldl_cons]
      rw [ih]
      simp [createProfile]
      omega

/-- C2: at every point where a `processJob` run persists job counters (every
in-loop `updateJobStatus` progress update), the persisted counters satisfy
`processed = successful + failed`: per item exactly one of successful/failed
is incremented together with processed. -/
theorem progress_counters_invariant (env : RunEnv) (jobId batchSize : Nat)
    (st : Store) (p s f : Nat) (rate : JSNum) (eta : Eta)
    (hmem : JobUpd.progress p s f rate eta ∈
      (processJob env jobId batchSize st).trace) :
    p = s + f := by
  have hstart : goodTrace
      ⟨env.urls.foldl (fun acc url => createProfile acc jobId url) st,
        [JobUpd.started], 0, 0, 0⟩ := by
    refine ⟨rfl, ?_⟩
    intro p' s' f' r' e' hm
    simp at hm
  have hloop := runBatchesAux_good env jobId batchSize env.urls.length
    env.urls.enum 0 _ hstart
  simp only [processJob] at hmem
  split at hmem
  · simp at hmem
  · split at hmem
    · split at hmem
      · exact hloop.2 p s f rate eta (by simpa [runBatches] using hmem)
      · exact hloop.2 p s f rate eta (by simpa [runBatches] using hmem)
      · exact hloop.2 p s f rate eta (by simpa [runBatches] using hmem)
    · simp at hmem

/-- Witness: the single progress update of an uninterrupted one-item run is
`processed = 1, successful = 1, failed = 0`, and it balances. -/
theorem progress_counters_invariant_witness :
    JobUpd.progress 1 1 0 (computeRateEta 1 60000 1 0).rate
        (computeRateEta 1 60000 1 0).eta ∈
      (processJob tinyEnv 3 1 emptyStore).trace ∧ (1 : Nat) = 1 + 0 := by
  have hmem : JobUpd.progress 1 1 0 (computeRateEta 1 60000 1 0).rate
      (computeRateEta 1 60000 1 0).eta ∈
      (processJob tinyEnv 3 1 emptyStore).trace := by
    show JobUpd.progress 1 1 0 (computeRateEta 1 60000 1 0).rate
        (computeRateEta 1 60000 1 0).eta ∈
      [JobUpd.started,
       JobUpd.progress 1 1 0 (computeRateEta 1 60000 1 0).rate
         (computeRateEta 1 60000 1 0).eta,
       JobUpd.completedUpd]
    exact List.mem_cons_of_mem _ (List.mem_cons_self _ _)
  exact ⟨hmem, progress_counters_invariant tinyEnv 3 1 emptyStore 1 1 0 _ _ hmem⟩

/-- C8: with an empty materialized item list the run takes the catch path: the
job is failed (a `failed` update carrying a completion timestamp is persisted)
with the "no LinkedIn URLs" error, and no per-item record is created; with a
non-empty list, a present token, a positive batch size and a never-interrupted
run, every item is processed (exactly one of successful/failed per item) and
the run terminates in the `completed` state. -/
theorem empty_fails_nonempty_completes (env : RunEnv) (jobId batchSize : Nat)
    (st : Store) :
    (env.urls = [] →
        (processJob env jobId batchSize st).outcome = RunOutcome.crashed ∧
        (processJob env jobId batchSize st).crashMessage =
          some "No LinkedIn URLs found in the uploaded file" ∧
        (processJob env jobId batchSize st).store = st ∧
        (processJob env jobId batchSize st).trace =
          [JobUpd.started, JobUpd.failedUpd]) ∧
    (env.urls ≠ [] → env.hasToken = true → batchSize ≠ 0 →
        (∀ b, env.obs b = some JStatus.processing) →
        (processJob env jobId batchSize st).outcome = RunOutcome.completedRun ∧
        (processJob env jobId batchSize st).processed = env.urls.length ∧
        (processJob env jobId batchSize st).successful +
          (processJob env jobId batchSize st).failed = env.urls.length) := by
  constructor
  · intro hempty
    have hE : env.urls.isEmpty = true := by simp [hempty]
    simp [processJob, hE]
  · intro hne htok hbs hobs
    have hE : env.urls.isEmpty = false := by simpa using hne
    obtain ⟨hfin, hproc, hsum⟩ := runBatchesAux_completes env jobId batchSize hobs hbs
      env.urls.enum.length env.urls.enum 0
      ⟨env.urls.foldl (fun acc url => createProfile acc jobId url) st,
        [JobUpd.started], 0, 0, 0⟩ (le_refl _)
    simp only [processJob, hE, htok, runBatches, hfin]
    simp only [List.enum_length] at hproc hsum
    exact ⟨rfl, by simpa using hproc, by simpa using hsum⟩

/-- Witness: the empty scenario crashes with the "no LinkedIn URLs" message;
the one-item scenario completes having processed its single item. -/
theorem empty_fails_nonempty_completes_witness :
    (processJob noUrlsEnv 4 2 emptyStore).outcome = RunOutcome.crashed ∧
    (processJob noUrlsEnv 4 2 emptyStore).crashMessage =
      some "No LinkedIn URLs found in the uploaded file" ∧
    (processJob tinyEnv 3 1 emptyStore).outcome = RunOutcome.completedRun ∧
    (processJob tinyEnv 3 1 emptyStore).processed = 1 :=
  ⟨((empty_fails_nonempty_completes noUrlsEnv 4 2 emptyStore).1 rfl).1,
   ((empty_fails_nonempty_completes noUrlsEnv 4 2 emptyStore).1 rfl).2.1,
   ((empty_fails_nonempty_completes tinyEnv 3 1 emptyStore).2
      (by simp [tinyEnv]) rfl (by norm_num) (fun _ => rfl)).1,
   ((empty_fails_nonempty_completes tinyEnv 3 1 emptyStore).2
      (by simp [tinyEnv]) rfl (by norm_num) (fun _ => rfl)).2.1⟩

/-- C1 counterexample: in the five-item scenario the item at index 1 is
persisted in `retrying` status with `retryCount = 1` — not in a terminal
`failed` status with `retryCount = 3` as the claim states (the record-level
retry counter is incremented once per scheduler pass, and a rate-limit failure
with count 1 < 3 is labelled `retrying`). -/
theorem end_to_end_items_not_failed_counterexample :
    (findByUrl (processJob endToEndEnv 7 2 emptyStore).store 7 "u1").map
      (fun p => (p.status, p.retryCount)) = some (PStatus.retrying, 1) ∧
    some (PStatus.retrying, (1:Nat)) ≠ some (PStatus.failed, 3) := by decide

/-- C1 (amended): in the five-item run with batch size 2 where the items at
indices 1 and 3 always fail with "rate limit exceeded" and the rest always
succeed, the final persisted counters are `successfulProfiles = 3`,
`failedProfiles = 2`, `processedProfiles = 5` and the job completes; each
failing item is persisted with `errorType = rate_limit`, but in `retrying`
status with `retryCount = 1` — the executor's three exhausted attempts per
failing item happen inside `extractProfileWithRetry` and are not reflected in
the record's retry count. -/
theorem end_to_end_amended :
    (processJob endToEndEnv 7 2 emptyStore).successful = 3 ∧
    (processJob endToEndEnv 7 2 emptyStore).failed = 2 ∧
    (processJob endToEndEnv 7 2 emptyStore).processed = 5 ∧
    (processJob endToEndEnv 7 2 emptyStore).outcome = RunOutcome.completedRun ∧
    (getProfilesByJob (processJob endToEndEnv 7 2 emptyStore).store 7).map
        (fun p => (p.linkedinUrl, p.status, p.retryCount, p.errorType)) =
      [("u0", .success, 0, none), ("u1", .retrying, 1, some RATE_LIMIT),
       ("u2", .success, 0, none), ("u3", .retrying, 1, some RATE_LIMIT),
       ("u4", .success, 0, none)] ∧
    (extractProfileWithRetry (endToEndEnv.attempts 1) 3).attemptsMade = 3 := by
  decide

theorem resumeJob_eq_paused (s : QueueState) (id : Nat) (j : ProcessingJob)
    (hj : mapGet s.jobs id = some j) (hst : j.status = JStatus.paused) :
    resumeJob s id =
      { s with jobs := mapSet s.jobs id { j with status := JStatus.pending } } := by
  simp only [resumeJob, hj, if_pos hst]

theorem processJob_store_growth (env : RunEnv) (jobId batchSize : Nat) (st : Store)
    (hne : env.urls ≠ []) :
    (processJob env jobId batchSize st).store.profiles.length =
      st.profiles.length + env.urls.length := by
  have hE : env.urls.isEmpty = false := by simpa using hne
  simp only [processJob]
  rw [if_neg (by simp [hE] : ¬env.urls.isEmpty = true)]
  by_cases htok : env.hasToken = true
  · rw [if_pos htok]
    simp only [runBatches]
    split <;>
      · dsimp only
        rw [runBatchesAux_storeLen, foldl_createProfile_length]
  · rw [if_neg htok]
    dsimp only
    exact foldl_createProfile_length jobId env.urls st

/-- C4 counterexample: after the paused two-item run (first item succeeded,
second still `pending`) is resumed, the rerun creates a second record for
every URL — four records for two items, so duplicate per-item records exist —
and re-processes the already-terminal first item: its original `success`
record even flips to `failed` when the re-run extraction fails. -/
theorem resume_no_reprocess_counterexample :
    (processJob pausedRunEnv 5 1 emptyStore).outcome = RunOutcome.earlyReturn ∧
    (getProfilesByJob
        (processJob resumedRunEnv 5 1
          (processJob pausedRunEnv 5 1 emptyStore).store).store 5).map
        (fun p => (p.id, p.linkedinUrl, p.status)) =
      [(1, "a", PStatus.failed), (2, "b", PStatus.success),
       (3, "a", PStatus.pending), (4, "b", PStatus.pending)] ∧
    (4 : Nat) ≠ 2 := by decide

/-- C4 (amended): `resumeJob` sets a paused job back to `pending`, after which
the loop re-runs `processJob` from scratch: the resumed run re-materializes
the item list, appending one fresh `pending` record per URL to those already
present (duplicating per-item records), and re-processes items from index 0;
items of batches not yet started when the pause was observed do remain
`pending` across the paused run. -/
theorem resume_reruns_from_scratch (s : QueueState) (id : Nat) (env : RunEnv)
    (jobId batchSize : Nat) (st : Store) :
    (∀ j, mapGet s.jobs id = some j → j.status = JStatus.paused →
        mapGet (resumeJob s id).jobs id =
          some { j with status := JStatus.pending }) ∧
    (env.urls ≠ [] →
        (processJob env jobId batchSize st).store.profiles.length =
          st.profiles.length + env.urls.length) ∧
    (getProfilesByJob (processJob pausedRunEnv 5 1 emptyStore).store 5).map
        (fun p => (p.linkedinUrl, p.status)) =
      [("a", PStatus.success), ("b", PStatus.pending)] := by
  refine ⟨?_, ?_, by decide⟩
  · intro j hj hst
    rw [resumeJob_eq_paused s id j hj hst]
    exact mapGet_mapSet_self _ _ _ j hj
  · exact processJob_store_growth env jobId batchSize st

/-- Witness for the resume claim: the paused demo job goes back to `pending`,
and the paused two-item run holds two records (duplicated again on rerun). -/
theorem resume_reruns_from_scratch_witness :
    mapGet (resumeJob demoPausedQueue 1).jobs 1 =
      some { id := 1, jobId := 5, batchSize := 1, status := JStatus.pending,
             retryCount := 0 } ∧
    (processJob pausedRunEnv 5 1 emptyStore).store.profiles.length = 0 + 2 :=
  ⟨(resume_reruns_from_scratch demoPausedQueue 1 pausedRunEnv 5 1 emptyStore).1
      { id := 1, jobId := 5, batchSize := 1, status := .paused, retryCount := 0 }
      (by decide) (by decide),
   (resume_reruns_from_scratch demoPausedQueue 1 pausedRunEnv 5 1 emptyStore).2.1
      (by simp [pausedRunEnv])⟩

end LHQ
